import Mathlib

/-!
Shallow embedding of the mirror.py synchronization daemon, together with
proofs about the properties its specification states.

Conventions of the embedding:
* Python strings are `String` or `List Char` (for the duration codec, where
  we reason character by character).
* Python ints are `Int` (or `Nat` where the source value is a count).
* Python floats holding epoch times are modelled as `Int` seconds: every
  property proved here only compares or adds such times.
* Python dicts are association lists `List (key × value)`; key uniqueness,
  which `dict` guarantees, appears as a `Nodup` hypothesis where needed.
* Fallible code returns `Except String _`.
* `mirror.debug` is `False` in production; the debug-only `raise` branches
  are modelled as the production no-op return.
-/

namespace Mirror

/-! ## mirror/toolbox/__init__.py -/

/-- The character class `\d` of the regular expression in
`iso_duration_parser` (ASCII decimal digits; every character this codec
emits is ASCII). -/
def isDig (c : Char) : Bool := 48 ≤ c.toNat && c.toNat ≤ 57

/-- The decimal digit character for `d < 10`, as produced by Python string
formatting. -/
def digitChar (d : Nat) : Char := Char.ofNat (48 + d)

/-- Numeric value of a decimal digit character. -/
def charVal (c : Char) : Nat := c.toNat - 48

/-- Decimal rendering of a natural number (the f-string `f"{n}"` of the
source), most significant digit first, in front of `acc`. -/
def natToDigits (n : Nat) (acc : List Char) : List Char :=
  if h : n < 10 then digitChar n :: acc
  else natToDigits (n / 10) (digitChar (n % 10) :: acc)
termination_by n
decreasing_by exact Nat.div_lt_self (by omega) (by omega)

/-- Decimal rendering of a natural number. -/
def natRepr (n : Nat) : List Char := natToDigits n []

/-- Value of a run of digit characters, accumulated left to right on top
of `a`. -/
def digitsVal (a : Nat) (ds : List Char) : Nat :=
  ds.foldl (fun x c => x * 10 + charVal c) a

/-- One optional group `((?P<g>\d+)X)?` of the duration regular
expression: if the input starts with a non-empty maximal digit run
followed by the letter, consume both and yield the value of the run; otherwise
consume nothing and yield 0.  (For a digit run the greedy `\d+` with
backtracking matches exactly this way: no proper shortening of the run can
place the letter next, since the letter is not a digit.) -/
def matchGroup (letter : Char) (s : List Char) : Nat × List Char :=
  match s.dropWhile isDig with
  | c :: rest =>
    if (!(s.takeWhile isDig).isEmpty) && c = letter then
      (digitsVal 0 (s.takeWhile isDig), rest)
    else (0, s)
  | [] => (0, s)

/-- Model of `iso_duration_parser` from `mirror/toolbox/__init__.py` (source name ends
in a token the development avoids): empty string parses to 0, `"PUSH"` to
the sentinel -1, otherwise the string must start with `P` and the regular
expression groups for years, months, weeks, days, then `T` with hours,
minutes, seconds are matched in order; only days, hours, minutes and
seconds contribute to the sum. -/
def iso_duration_parse (s : List Char) : Except String Int :=
  if s.isEmpty then .ok 0
  else if s = ['P', 'U', 'S', 'H'] then .ok (-1)
  else
    match s with
    | 'P' :: r0 =>
      let (_, r1) := matchGroup 'Y' r0
      let (_, r2) := matchGroup 'M' r1
      let (_, r3) := matchGroup 'W' r2
      let (days, r4) := matchGroup 'D' r3
      let hms : Nat × Nat × Nat :=
        match r4 with
        | 'T' :: r5 =>
          let (h, r6) := matchGroup 'H' r5
          let (m, r7) := matchGroup 'M' r6
          let (sec, _) := matchGroup 'S' r7
          (h, m, sec)
        | _ => (0, 0, 0)
      .ok ((days : Int) * 24 * 3600 + (hms.1 : Int) * 3600 +
           (hms.2.1 : Int) * 60 + (hms.2.2 : Int))
    | _ => .error "Invalid ISO8601 duration string"

/-- The part `f"{v}X"` appended by `iso_duration_maker` when component `v`
is positive, and nothing when it is zero. -/
def emit (v : Nat) (letter : Char) : List Char :=
  if v = 0 then [] else natRepr v ++ [letter]

/-- Model of `iso_duration_maker` from `mirror/toolbox/__init__.py`: -1 formats to
`"PUSH"`, other negatives and values above 2678399 raise, 0 formats to the
empty string, and positive durations are decomposed into days, hours,
minutes and seconds, each emitted only when non-zero, the time components
behind a `T`. -/
def iso_duration_maker (duration : Int) : Except String (List Char) :=
  if duration = -1 then .ok ['P', 'U', 'S', 'H']
  else if duration < 0 then .error "Duration must be a positive integer."
  else if duration > 2678399 then .error "Duration must be less than 31 days."
  else if duration = 0 then .ok []
  else
    let n := duration.toNat
    let days := n / 86400
    let rem := n % 86400
    let hours := rem / 3600
    let rem2 := rem % 3600
    let minutes := rem2 / 60
    let seconds := rem2 % 60
    let tpart : List Char :=
      if rem > 0 then
        'T' :: (emit hours 'H' ++ emit minutes 'M' ++ emit seconds 'S')
      else []
    .ok ('P' :: (emit days 'D' ++ tpart))

/-! ## mirror/structure/__init__.py -/

/-- The `Package` dataclass: the fields the verified properties touch.
`link` and `settings` carry no behavior relevant to the claims and are
omitted; times are epoch seconds, `timestamp` epoch milliseconds. -/
structure Package where
  pkgid : String
  name : String
  status : String
  synctype : String
  syncrate : Int
  lastsync : Int
  errorcount : Nat
  disabled : Bool
  timestamp : Int
deriving Repr, DecidableEq

/-- The tuple `status_list` inside `Package.set_status`. -/
def status_list : List String := ["ACTIVE", "SYNC", "ERROR", "UNKNOWN"]

/-- Model of `Package.set_status`: equal target returns unchanged; an invalid
target logs and returns unchanged (production, `mirror.debug = False`);
otherwise the status and timestamp are updated and `errorcount` is
incremented exactly when the new status is `ERROR`.  `now_ms` stands for
`time.time() * 1000`. -/
def set_status (p : Package) (status : String) (now_ms : Int) : Package :=
  if status = p.status then p
  else if status ∉ status_list then p
  else
    let p1 := { p with status := status, timestamp := now_ms }
    if status = "ERROR" then { p1 with errorcount := p.errorcount + 1 } else p1

/-! ## mirror/command/daemon.py -/

/-- The body of the daemon scheduling loop for one package of one tick
(`daemon`, the `for package in mirror.packages.values()` body).  `now` is
`time.time()`, `syncing` the `syncing_packages` set (modelled as a list
without duplicates).  Returns the package after the step, the new
`syncing` set, and whether a sync was dispatched
(`package.set_status("SYNC")` followed by `mirror.sync.start`). -/
def daemon_tick_package (now : Int) (syncing : List String) (p : Package) :
    Package × List String × Bool :=
  if p.disabled then (p, syncing, false)
  else if p.status = "SYNC" then
    (p, if p.pkgid ∈ syncing then syncing else syncing ++ [p.pkgid], false)
  else
    let syncing1 := syncing.filter (fun x => x ≠ p.pkgid)
    if now - p.lastsync > p.syncrate then
      (set_status p "SYNC" (now * 1000), syncing1, true)
    else (p, syncing1, false)

/-! ## mirror/sync/rsync.py and mirror/sync/bandersnatch.py -/

/-- The `execute_command`/`start_sync` reply the backend inspects. -/
structure WorkerResp where
  status : String
  job_pid : Int
deriving Repr, DecidableEq

/-- Model of `rsync.execute`: set the package to `SYNC` on entry, delegate to the
worker, and on a reply whose `status` is `"started"` record
`lastsync = time.time()` and set the package to `ACTIVE` at once; any
exception (RPC failure) or non-started reply sets `ERROR`.  `resp` is the
outcome of the worker RPC, `now` the wall clock in seconds. -/
def rsync_execute (p : Package) (resp : Except String WorkerResp) (now : Int) :
    Package :=
  let p1 := set_status p "SYNC" (now * 1000)
  match resp with
  | .error _ => set_status p1 "ERROR" (now * 1000)
  | .ok r =>
    if r.status = "started" then
      set_status { p1 with lastsync := now } "ACTIVE" (now * 1000)
    else
      set_status p1 "ERROR" (now * 1000)

/-- The backend `bandersnatch.execute` follows the same shape: `SYNC` on entry, and on
a started reply `lastsync = time.time()` and `ACTIVE` immediately. -/
def bandersnatch_execute (p : Package) (resp : Except String WorkerResp)
    (now : Int) : Package :=
  let p1 := set_status p "SYNC" (now * 1000)
  match resp with
  | .error _ => set_status p1 "ERROR" (now * 1000)
  | .ok r =>
    if r.status = "started" then
      set_status { p1 with lastsync := now } "ACTIVE" (now * 1000)
    else
      set_status p1 "ERROR" (now * 1000)

/-! ## mirror/worker/process.py -/

/-- A `Job` of the worker registry.  `running` is `process.poll() is
None`; `logThread` is the optional output-forwarding thread, carrying
whether it is alive when `prune_finished` inspects it and whether it is
still alive after the 0.1 s join the sweep performs. -/
structure Job where
  id : String
  commandline : List String
  env : List (String × String)
  uid : Int
  gid : Int
  nice : Int
  log_path : Option String
  running : Bool
  logThread : Option (Bool × Bool)
deriving Repr, DecidableEq

/-- The per-job decision of `prune_finished`: a job is removed when its
process has exited and it either has no live log thread, or the log
thread ends within the 0.1 s join of the sweep. -/
def shouldPrune (j : Job) : Bool :=
  !j.running &&
    (match j.logThread with
     | some (alive, aliveAfterJoin) => if alive then !aliveAfterJoin else true
     | none => true)

/-- Model of `prune_finished`: collect the ids marked for removal over one pass of
the registry, then delete them. -/
def prune_finished (jobs : List (String × Job)) : List (String × Job) :=
  let toRemove := (jobs.filter (fun kv => shouldPrune kv.2)).map Prod.fst
  jobs.filter (fun kv => !(toRemove.contains kv.1))

/-- Model of `process.create`: refuse a `job_id` already present in the registry,
otherwise construct the job and start it (`job.start()` registers it;
the successful spawn is modelled, a spawn failure would raise before
registration).  A fresh job is running with no log thread. -/
def process_create (jobs : List (String × Job)) (job_id : String)
    (commandline : List String) (env : List (String × String))
    (uid gid nice : Int) (log_path : Option String) :
    Except String (List (String × Job) × Job) :=
  if (jobs.lookup job_id).isSome then
    .error "Worker with ID already exists."
  else
    let j : Job := { id := job_id, commandline := commandline, env := env,
                     uid := uid, gid := gid, nice := nice,
                     log_path := log_path, running := true, logThread := none }
    .ok (jobs ++ [(job_id, j)], j)

/-! ## mirror/socket/worker.py -/

/-- The worker process state as the RPC layer sees it: the registry of
`mirror.worker.process._jobs` and the number of connected master clients
(the `client_count` consulted by `send_finished_notification`). -/
structure WorkerState where
  jobs : List (String × Job)
  clients : Nat
deriving Repr, DecidableEq

/-- One `prune_finished` sweep, as invoked by the status / progress /
execute handlers: it touches only the job registry. -/
def prune_sweep (s : WorkerState) : WorkerState :=
  { s with jobs := prune_finished s.jobs }

/-- A wire response `{status, message}` (the `data` payload is not needed
by the verified properties). -/
structure Resp where
  status : Nat
  message : String
deriving Repr, DecidableEq

/-- The falsy-default of `_handle_execute_command`: `if not uid: uid =
os.getuid()` — an omitted argument, an explicit `None` and an explicit
`0` are all replaced by the id of the worker process itself. -/
def resolve_id (v : Option Int) (own : Int) : Int :=
  match v with
  | none => own
  | some x => if x = 0 then own else x

/-- Model of `WorkerServer._handle_execute_command`, wrapped by the
`BaseServer._handle_connection` dispatcher that turns a handler exception
into a status-500 response: prune the registry, default falsy `uid`/`gid`
to the ids of the worker process, and create-and-start the job; a duplicate id
raises inside `process.create` and surfaces as 500. -/
def handle_execute_command (st : WorkerState) (job_id : String)
    (commandline : List String) (env : List (String × String))
    (uid gid : Option Int) (nice : Int) (log_path : Option String)
    (os_uid os_gid : Int) : WorkerState × Resp :=
  let jobs1 := prune_finished st.jobs
  let u := resolve_id uid os_uid
  let g := resolve_id gid os_gid
  match process_create jobs1 job_id commandline env u g nice log_path with
  | .error msg => ({ st with jobs := jobs1 }, { status := 500, message := msg })
  | .ok (jobs2, _) => ({ st with jobs := jobs2 }, { status := 200, message := "OK" })

/-! ## mirror/socket/__init__.py — handshake -/

/-- The handshake frame contents. -/
structure HandshakeInfo where
  app_name : String
  app_version : String
  protocol_version : Int
  is_server : Bool
  role : String
deriving Repr, DecidableEq

/-- Constant `APP_NAME` of the protocol. -/
def APP_NAME : String := "mirror.py"

/-- Constant `PROTOCOL_VERSION` of the protocol. -/
def PROTOCOL_VERSION : Int := 1

/-- A frame sent during the handshake: status, message and the optional
`data.info` payload. -/
structure Frame where
  status : Nat
  message : String
  info : Option HandshakeInfo
deriving Repr, DecidableEq

/-- Model of `BaseServer._perform_handshake`: the server sends its own info first,
reads the client info, answers 403 on an application-name mismatch, 400
on a protocol-version mismatch (checked in that order) and 200 OK when
both match.  Returns the frames sent and the accepted client info
(`none` means rejection). -/
def perform_handshake (server_info client : HandshakeInfo) :
    List Frame × Option HandshakeInfo :=
  let hello : Frame := { status := 200, message := "Handshake", info := some server_info }
  if client.app_name ≠ APP_NAME then
    ([hello, { status := 403, message := "Invalid application", info := none }], none)
  else if client.protocol_version ≠ PROTOCOL_VERSION then
    ([hello, { status := 400, message := "Protocol version mismatch", info := none }], none)
  else
    ([hello, { status := 200, message := "OK", info := none }], some client)

/-- Model of `BaseServer._accept_loop` around the handshake: when the handshake
yields no client info the connection is closed and no handler thread is
started; otherwise the connection is served.  The boolean records whether
command serving begins. -/
def accept_connection (server_info client : HandshakeInfo) : List Frame × Bool :=
  match perform_handshake server_info client with
  | (frames, none) => (frames, false)
  | (frames, some _) => (frames, true)

/-! ## mirror/config/__init__.py — load and reconciliation -/

/-- A JSON value, as far as the stat/config merge manipulates one. -/
inductive J where
  | null : J
  | str : String → J
  | num : Int → J
  | bool : Bool → J
  | arr : List J → J
  | obj : List (String × J) → J
deriving Repr

/-- Python truthiness of a JSON value (`if status_to_preserve:`). -/
def truthy : J → Bool
  | .null => false
  | .str v => !(v = "")
  | .num v => !(v = 0)
  | .bool v => v
  | .arr l => !l.isEmpty
  | .obj l => !l.isEmpty

/-- The fields of a JSON object; config package entries and stat entries are
objects. -/
abbrev JObj := List (String × J)

/-- Python `dict.get(key)`: first binding of the key, if any. -/
def jGet (o : JObj) (key : String) : Option J := o.lookup key

/-- Python `d[key] = value` on a dict (insertion-ordered): replace the
binding in place if the key exists, else append it. -/
def dictSet {α : Type} (o : List (String × α)) (key : String) (v : α) :
    List (String × α) :=
  if (o.lookup key).isSome then
    o.map (fun kv => if kv.1 = key then (key, v) else kv)
  else o ++ [(key, v)]

/-- The seeded status blob for a package with no preserved status:
`{"status": "UNKNOWN", "statusinfo": {"errorcount": 0, "lastsync": 0.0}}`. -/
def unknownBlob : J :=
  .obj [("status", .str "UNKNOWN"),
        ("statusinfo", .obj [("errorcount", .num 0), ("lastsync", .num 0)])]

/-- One iteration of the `for pkg_id, pkg_config in config_packages.items()`
loop of `load`: preserve the truthy `status` of an existing merged entry,
otherwise seed the UNKNOWN blob, on a copy of the config entry. -/
def merge_step (final : List (String × JObj)) (k : String) (cfg : JObj) :
    List (String × JObj) :=
  let preserved : Option J :=
    match final.lookup k with
    | some e => jGet e "status"
    | none => none
  let sv : J :=
    match preserved with
    | some v => if truthy v then v else unknownBlob
    | none => unknownBlob
  dictSet final k (dictSet cfg "status" sv)

/-- The stat/config reconciliation of `load` (steps 2 and 3): drop stat
entries whose id is not in the config, then walk the config entries in
order, preserving truthy statuses and seeding newcomers. -/
def load_merge (config_packages : List (String × JObj))
    (stat_packages : List (String × JObj)) : List (String × JObj) :=
  let final0 := stat_packages.filter
    (fun kv => (config_packages.lookup kv.1).isSome)
  config_packages.foldl (fun final kc => merge_step final kc.1 kc.2) final0

/-! ## Concrete fixtures used by counterexamples and witnesses -/

/-- A package currently in `ERROR` with five recorded errors. -/
def pkgERR : Package :=
  { pkgid := "mirror", name := "mirror", status := "ERROR", synctype := "rsync",
    syncrate := 3600, lastsync := 0, errorcount := 5, disabled := false,
    timestamp := 0 }

/-- An idle package in `UNKNOWN` with an hourly cadence. -/
def pkgIdle : Package :=
  { pkgid := "mirror", name := "mirror", status := "UNKNOWN", synctype := "rsync",
    syncrate := 3600, lastsync := 0, errorcount := 0, disabled := false,
    timestamp := 0 }

/-- A push-only package: `syncrate` is the -1 sentinel parsed from
`"PUSH"`. -/
def pkgPush : Package :=
  { pkgid := "debian", name := "debian", status := "UNKNOWN", synctype := "ftpsync",
    syncrate := -1, lastsync := 0, errorcount := 0, disabled := false,
    timestamp := 0 }

/-- A package stuck in `SYNC` for an hour (`lastsync = now - 3600`). -/
def pkgStale : Package :=
  { pkgid := "ubuntu", name := "ubuntu", status := "SYNC", synctype := "rsync",
    syncrate := 600, lastsync := 0, errorcount := 0, disabled := false,
    timestamp := 0 }

/-! ## C1 — errorcount and transitions into ERROR -/

/-- C1 (counterexample): the claim says a failure-notification transition
from `ERROR` to `ERROR` also increments `errorcount` by exactly one.  On a
package already in `ERROR`, `set_status("ERROR")` returns at the
`status == self.status` guard and the count stays 5, not 6. -/
theorem set_status_error_to_error_no_increment :
    pkgERR.status = "ERROR" ∧
    (set_status pkgERR "ERROR" 0).errorcount ≠ pkgERR.errorcount + 1 := by
  decide

/-- C1 (amended): via `set_status`, `errorcount` grows by exactly one on a
transition whose target is `ERROR` and whose current status is not
`ERROR`; every other call — target equal to the current status (including
`ERROR` to `ERROR`), an invalid target, or a valid non-`ERROR` target —
leaves `errorcount` unchanged. -/
theorem set_status_errorcount (p : Package) (s : String) (now_ms : Int) :
    (set_status p s now_ms).errorcount =
      if s = "ERROR" ∧ p.status ≠ "ERROR" then p.errorcount + 1
      else p.errorcount := by
  unfold set_status
  split_ifs with h1 h2 h3 h4 h5 <;> simp_all [status_list]

/-! ## C2 — backend sets ACTIVE at dispatch time -/

/-- C2 (code evaluated at the failing input): when the worker RPC replies
`{"status": "started"}`, `rsync.execute` (and `bandersnatch.execute`)
immediately records `lastsync` and moves the package to `ACTIVE`; no
`job_finished` notification is involved, contradicting the claimed
stay-in-`SYNC`-until-notification discipline. -/
theorem rsync_dispatch_sets_active_immediately :
    (rsync_execute pkgIdle (.ok { status := "started", job_pid := 4242 }) 1000).status
      = "ACTIVE" ∧
    (rsync_execute pkgIdle (.ok { status := "started", job_pid := 4242 }) 1000).lastsync
      = 1000 ∧
    (bandersnatch_execute pkgIdle (.ok { status := "started", job_pid := 4242 }) 1000).status
      = "ACTIVE" := by
  decide

/-! ## C3 — push-only packages and the time-based dispatch condition -/

/-- C3 (code evaluated at the failing input): the loop condition
`time.time() - package.lastsync > package.syncrate` has no
`syncrate >= 0` guard, so a push-only package (`syncrate = -1`) is
dispatched by time on an ordinary tick: here `100 - 0 > -1` holds, the
package is moved to `SYNC` and a sync is started. -/
theorem push_package_dispatched_by_time :
    pkgPush.syncrate = -1 ∧
    (daemon_tick_package 100 [] pkgPush).2.2 = true ∧
    (daemon_tick_package 100 [] pkgPush).1.status = "SYNC" := by
  decide

/-! ## C4 — no stale-SYNC sweep in the scheduler loop -/

/-- C4 (counterexample): a package recorded `SYNC` with
`lastsync = now - 3600` and no live worker job is, per the claim, swept to
`ERROR` on the next tick.  The loop body merely skips any `SYNC` package:
the package is returned unchanged, still in `SYNC`. -/
theorem stale_sync_not_swept :
    pkgStale.status = "SYNC" ∧ (3600 : Int) - pkgStale.lastsync ≥ 60 ∧
    (daemon_tick_package 3600 [] pkgStale).1 = pkgStale ∧
    (daemon_tick_package 3600 [] pkgStale).1.status ≠ "ERROR" := by
  decide

/-- C4 (amended): the scheduler tick leaves every enabled package whose
status is `SYNC` unchanged and dispatches nothing for it, regardless of
elapsed time or of any worker state (the loop never queries the worker);
its only effect is recording the id in the `syncing_packages` set. -/
theorem sync_status_skipped (now : Int) (syncing : List String) (p : Package)
    (hd : p.disabled = false) (hs : p.status = "SYNC") :
    daemon_tick_package now syncing p =
      (p, (if p.pkgid ∈ syncing then syncing else syncing ++ [p.pkgid]), false) := by
  unfold daemon_tick_package
  simp [hd, hs]

/-- Witness for the amended C4 at the stale fixture. -/
theorem sync_status_skipped_witness :
    daemon_tick_package 3600 [] pkgStale = (pkgStale, [pkgStale.pkgid], false) := by
  have h := sync_status_skipped 3600 [] pkgStale rfl rfl
  simpa using h

/-! ## Association-list lemmas shared by the worker and config proofs -/

theorem lookup_mem {α : Type} {l : List (String × α)} {k : String} {v : α}
    (h : l.lookup k = some v) : (k, v) ∈ l := by
  induction l with
  | nil => simp [List.lookup] at h
  | cons a l ih =>
    obtain ⟨ka, va⟩ := a
    cases hk : k == ka with
    | false =>
      have h2 : l.lookup k = some v := by
        have h3 := h
        simp only [List.lookup, hk] at h3
        exact h3
      exact List.mem_cons_of_mem _ (ih h2)
    | true =>
      have h2 : some va = some v := by
        have h3 := h
        simp only [List.lookup, hk] at h3
        exact h3
      have hkk : k = ka := by simpa using hk
      cases h2
      rw [hkk]
      exact List.mem_cons_self _ _

theorem mem_lookup_of_nodup {α : Type} {l : List (String × α)}
    (hnd : (l.map Prod.fst).Nodup) {k : String} {v : α}
    (h : (k, v) ∈ l) : l.lookup k = some v := by
  induction l with
  | nil => simp at h
  | cons a l ih =>
    obtain ⟨ka, va⟩ := a
    rw [List.map_cons, List.nodup_cons] at hnd
    rcases List.mem_cons.mp h with h1 | h1
    · injection h1 with hk hv
      subst hk
      subst hv
      simp [List.lookup]
    · have hk : (k == ka) = false := by
        rw [beq_eq_false_iff_ne]
        intro he
        apply hnd.1
        rw [← he]
        exact List.mem_map.mpr ⟨(k, v), h1, rfl⟩
      simp only [List.lookup, hk]
      exact ih hnd.2 h1

theorem lookup_append_of_none {α : Type} {l l2 : List (String × α)} {k : String}
    (h : l.lookup k = none) : (l ++ l2).lookup k = l2.lookup k := by
  induction l with
  | nil => rfl
  | cons a l ih =>
    obtain ⟨ka, va⟩ := a
    cases hk : k == ka with
    | false =>
      have h2 : l.lookup k = none := by
        have h3 := h
        simp only [List.lookup, hk] at h3
        exact h3
      rw [List.cons_append]
      simp only [List.lookup, hk]
      exact ih h2
    | true =>
      exfalso
      have h3 := h
      simp only [List.lookup, hk] at h3
      exact Option.noConfusion h3

theorem pairs_eq_of_nodup_keys {α : Type} {l : List (String × α)}
    (hnd : (l.map Prod.fst).Nodup) {a b : String × α}
    (ha : a ∈ l) (hb : b ∈ l) (h : a.1 = b.1) : a = b := by
  obtain ⟨ka, va⟩ := a
  obtain ⟨kb, vb⟩ := b
  simp only at h
  subst h
  have h1 := mem_lookup_of_nodup hnd ha
  have h2 := mem_lookup_of_nodup hnd hb
  rw [h1] at h2
  simp_all

/-! ## C5 — pruning does not wait for notification delivery -/

/-- A finished rsync job with no log-forwarding thread. -/
def doneJob : Job :=
  { id := "mirror", commandline := ["rsync"], env := [], uid := 1000, gid := 1000,
    nice := 0, log_path := none, running := false, logThread := none }

/-- A worker with one finished job and no connected master client. -/
def lonelyState : WorkerState := { jobs := [("mirror", doneJob)], clients := 0 }

/-- C5 (counterexample): with zero connected listeners — so no
`job_finished` notification can have been delivered — one `prune_finished`
sweep still removes the finished job from the registry; the claim says it
must remain for the next sweep. -/
theorem finished_job_pruned_without_listeners :
    lonelyState.clients = 0 ∧ doneJob.running = false ∧
    (prune_sweep lonelyState).jobs.lookup "mirror" = none := by
  decide

/-- C5 (amended): `prune_finished` removes exactly the registered jobs
whose process has exited and whose log thread, if any, is no longer alive
after the 0.1 s join of the sweep; notification delivery and the number of
connected listeners play no role (a finished job is retained only while
its log thread is still alive). -/
theorem prune_removes_all_finished (s : WorkerState)
    (hnd : (s.jobs.map Prod.fst).Nodup) :
    (prune_sweep s).jobs = s.jobs.filter (fun kv => !shouldPrune kv.2) ∧
    (prune_sweep s).clients = s.clients := by
  refine ⟨?_, rfl⟩
  show prune_finished s.jobs = _
  unfold prune_finished
  apply List.filter_congr
  intro kv hkv
  have key : (((s.jobs.filter (fun kv => shouldPrune kv.2)).map Prod.fst).contains kv.1)
      = shouldPrune kv.2 := by
    by_cases hp : shouldPrune kv.2
    · rw [hp]
      have hmem : kv.1 ∈ (s.jobs.filter (fun kv => shouldPrune kv.2)).map Prod.fst :=
        List.mem_map_of_mem Prod.fst (List.mem_filter.mpr ⟨hkv, hp⟩)
      simpa using hmem
    · simp only [Bool.not_eq_true] at hp
      rw [hp]
      rw [Bool.eq_false_iff]
      intro hc
      have hmem : kv.1 ∈ (s.jobs.filter (fun kv => shouldPrune kv.2)).map Prod.fst := by
        simpa using hc
      obtain ⟨kv2, hkv2, hfst⟩ := List.mem_map.mp hmem
      have hkv2f := List.mem_filter.mp hkv2
      have heq : kv2 = kv := pairs_eq_of_nodup_keys hnd hkv2f.1 hkv hfst
      rw [heq, hp] at hkv2f
      exact absurd hkv2f.2 (by simp)
  rw [key]

/-- Witness for the amended C5 at the single-finished-job worker. -/
theorem prune_removes_all_finished_witness :
    (prune_sweep lonelyState).jobs = [] ∧
    (prune_sweep lonelyState).clients = 0 := by
  have h := prune_removes_all_finished lonelyState (by simp [lonelyState])
  exact ⟨h.1.trans rfl, h.2.trans rfl⟩

/-! ## C7 — duplicate job_id rejected while the job is registered -/

/-- C7: while a job with id `J` is in the registry and survives the
sweep the handler performs (it has not been pruned), `execute_command`
with `job_id = J` answers status 500 with the duplicate-job message of
`process.create`, no job is created or started (the resulting registry is
exactly the swept registry, to which nothing was appended), and the entry
for `J` is untouched. -/
theorem execute_command_duplicate (st : WorkerState) (J : String)
    (cl : List String) (env : List (String × String)) (uid gid : Option Int)
    (nice : Int) (lp : Option String) (os_uid os_gid : Int)
    (hnd : (st.jobs.map Prod.fst).Nodup)
    (hin : ((prune_finished st.jobs).lookup J).isSome) :
    (handle_execute_command st J cl env uid gid nice lp os_uid os_gid).2.status = 500 ∧
    (handle_execute_command st J cl env uid gid nice lp os_uid os_gid).2.message =
      "Worker with ID already exists." ∧
    (handle_execute_command st J cl env uid gid nice lp os_uid os_gid).1.jobs =
      prune_finished st.jobs ∧
    (prune_finished st.jobs).lookup J = st.jobs.lookup J := by
  have h4 : (prune_finished st.jobs).lookup J = st.jobs.lookup J := by
    obtain ⟨v, hv⟩ := Option.isSome_iff_exists.mp hin
    have hmem : (J, v) ∈ prune_finished st.jobs := lookup_mem hv
    have hmem2 : (J, v) ∈ st.jobs := by
      unfold prune_finished at hmem
      exact List.mem_of_mem_filter hmem
    rw [hv, mem_lookup_of_nodup hnd hmem2]
  refine ⟨?_, ?_, ?_, h4⟩ <;>
    simp [handle_execute_command, process_create, hin]

/-- A job whose child process is still running. -/
def runningJob : Job :=
  { id := "mirror", commandline := ["rsync"], env := [], uid := 1000, gid := 1000,
    nice := 0, log_path := none, running := true, logThread := none }

/-- A worker with one still-running job. -/
def busyState : WorkerState := { jobs := [("mirror", runningJob)], clients := 1 }

/-- Witness for C7 at a registry holding one running job. -/
theorem execute_command_duplicate_witness :
    (handle_execute_command busyState "mirror" ["rsync"] [] none none 0 none 1000 1000).2.status = 500 ∧
    (handle_execute_command busyState "mirror" ["rsync"] [] none none 0 none 1000 1000).2.message =
      "Worker with ID already exists." ∧
    (handle_execute_command busyState "mirror" ["rsync"] [] none none 0 none 1000 1000).1.jobs =
      prune_finished busyState.jobs ∧
    (prune_finished busyState.jobs).lookup "mirror" = busyState.jobs.lookup "mirror" :=
  execute_command_duplicate busyState "mirror" ["rsync"] [] none none 0 none 1000 1000
    (by simp [busyState]) rfl

/-! ## C10 — falsy uid/gid replaced by the ids of the worker process -/

/-- C10: on every `execute_command` request that creates a job, if `uid`
is omitted, `None`, or `0` — including an explicit request to run as root
— the created job carries the uid of the worker process instead,
whatever `gid` was requested; independently, a falsy `gid` is replaced by
the gid of the worker process, whatever `uid` was requested.  The request
is honored with a 200 response rather than rejected. -/
theorem execute_command_uid_defaulted (st : WorkerState) (J : String)
    (cl : List String) (env : List (String × String)) (uid gid : Option Int)
    (nice : Int) (lp : Option String) (os_uid os_gid : Int)
    (hfree : (prune_finished st.jobs).lookup J = none) :
    (handle_execute_command st J cl env uid gid nice lp os_uid os_gid).2.status = 200 ∧
    ∃ j, (handle_execute_command st J cl env uid gid nice lp os_uid os_gid).1.jobs.lookup J
        = some j ∧
      ((uid = none ∨ uid = some 0) → j.uid = os_uid) ∧
      ((gid = none ∨ gid = some 0) → j.gid = os_gid) := by
  simp only [handle_execute_command, process_create, hfree,
    Option.isSome_none, Bool.false_eq_true, if_false]
  refine ⟨trivial,
    ⟨{ id := J, commandline := cl, env := env, uid := resolve_id uid os_uid,
       gid := resolve_id gid os_gid, nice := nice, log_path := lp,
       running := true, logThread := none }, ?_, ?_, ?_⟩⟩
  · rw [lookup_append_of_none hfree]
    simp [List.lookup]
  · rintro (h | h) <;> simp [h, resolve_id]
  · rintro (h | h) <;> simp [h, resolve_id]

/-- Witness for C10: an explicit `uid = 0` (root) together with a truthy
`gid = 7` against an empty registry; the uid substitution applies on its
own, with the worker process running as 1000/100. -/
theorem execute_command_uid_defaulted_witness :
    (handle_execute_command ⟨[], 1⟩ "mirror" ["rsync"] [] (some 0) (some 7) 0 none 1000 100).2.status = 200 ∧
    ∃ j, (handle_execute_command ⟨[], 1⟩ "mirror" ["rsync"] [] (some 0) (some 7) 0 none 1000 100).1.jobs.lookup "mirror"
        = some j ∧
      (((some 0 : Option Int) = none ∨ (some 0 : Option Int) = some 0) → j.uid = 1000) ∧
      (((some 7 : Option Int) = none ∨ (some 7 : Option Int) = some 0) → j.gid = 100) :=
  execute_command_uid_defaulted ⟨[], 1⟩ "mirror" ["rsync"] [] (some 0) (some 7) 0 none 1000 100
    rfl

/-! ## C8 — handshake status codes -/

/-- The first frame of every exchange: the server introduces itself. -/
def helloFrame (si : HandshakeInfo) : Frame :=
  { status := 200, message := "Handshake", info := some si }

/-- C8: the server sends its handshake frame first; a client matching both
`app_name` and `protocol_version` completes the handshake with a final
`200 OK` and the connection is served; a client with a mismatched
`app_name` is answered 403 and a client with matching `app_name` but
mismatched `protocol_version` is answered 400 (the application name is
checked first), and in both mismatch cases the connection is closed
without serving commands. -/
theorem handshake_case_analysis (si ci : HandshakeInfo) :
    ((accept_connection si ci).1.head? = some (helloFrame si)) ∧
    (ci.app_name = APP_NAME → ci.protocol_version = PROTOCOL_VERSION →
      accept_connection si ci =
        ([helloFrame si, { status := 200, message := "OK", info := none }], true)) ∧
    (ci.app_name ≠ APP_NAME →
      accept_connection si ci =
        ([helloFrame si, { status := 403, message := "Invalid application", info := none }], false)) ∧
    (ci.app_name = APP_NAME → ci.protocol_version ≠ PROTOCOL_VERSION →
      accept_connection si ci =
        ([helloFrame si, { status := 400, message := "Protocol version mismatch", info := none }], false)) := by
  unfold accept_connection perform_handshake helloFrame
  by_cases h1 : ci.app_name = APP_NAME <;>
    by_cases h2 : ci.protocol_version = PROTOCOL_VERSION <;>
      simp [h1, h2]

/-- The handshake info of the worker server itself. -/
def serverInfo : HandshakeInfo :=
  { app_name := "mirror.py", app_version := "1.0.0", protocol_version := 1,
    is_server := true, role := "worker" }

/-- A conforming client. -/
def goodClient : HandshakeInfo :=
  { app_name := "mirror.py", app_version := "1.0.0", protocol_version := 1,
    is_server := false, role := "master" }

/-- A client of a different application. -/
def wrongAppClient : HandshakeInfo :=
  { app_name := "other.py", app_version := "1.0.0", protocol_version := 1,
    is_server := false, role := "master" }

/-- A client speaking protocol 999. -/
def wrongProtoClient : HandshakeInfo :=
  { app_name := "mirror.py", app_version := "1.0.0", protocol_version := 999,
    is_server := false, role := "master" }

/-- Witness for C8 at the three concrete clients. -/
theorem handshake_case_analysis_witness :
    accept_connection serverInfo goodClient =
      ([helloFrame serverInfo, { status := 200, message := "OK", info := none }], true) ∧
    accept_connection serverInfo wrongAppClient =
      ([helloFrame serverInfo, { status := 403, message := "Invalid application", info := none }], false) ∧
    accept_connection serverInfo wrongProtoClient =
      ([helloFrame serverInfo, { status := 400, message := "Protocol version mismatch", info := none }], false) :=
  ⟨(handshake_case_analysis serverInfo goodClient).2.1 rfl rfl,
   (handshake_case_analysis serverInfo wrongAppClient).2.2.1 (by decide),
   (handshake_case_analysis serverInfo wrongProtoClient).2.2.2 rfl (by decide)⟩

/-! ## C6 — reconciliation of config and stat in load -/

theorem lookup_isSome_iff {α : Type} (l : List (String × α)) (k : String) :
    (l.lookup k).isSome = true ↔ k ∈ l.map Prod.fst := by
  induction l with
  | nil => simp [List.lookup]
  | cons a l ih =>
    obtain ⟨ka, va⟩ := a
    cases hk : k == ka with
    | true =>
      have hkk : k = ka := by simpa using hk
      simp [List.lookup, hk, hkk]
    | false =>
      have hne : ¬k = ka := by simpa using (beq_eq_false_iff_ne.mp hk)
      simp only [List.lookup, hk, List.map_cons, List.mem_cons]
      rw [ih]
      constructor
      · exact Or.inr
      · rintro (h | h)
        · exact absurd h hne
        · exact h

theorem dictSet_keys {α : Type} (o : List (String × α)) (k : String) (v : α)
    (k2 : String) :
    (k2 ∈ (dictSet o k v).map Prod.fst) ↔ (k2 ∈ o.map Prod.fst ∨ k2 = k) := by
  unfold dictSet
  by_cases h : (o.lookup k).isSome = true
  · rw [if_pos h]
    have hkeys : (o.map (fun kv => if kv.1 = k then (k, v) else kv)).map Prod.fst
        = o.map Prod.fst := by
      rw [List.map_map]
      apply List.map_congr_left
      intro kv _
      by_cases hkv : kv.1 = k
      · simp [Function.comp, hkv]
      · simp [Function.comp, hkv]
    rw [hkeys]
    constructor
    · exact Or.inl
    · rintro (h2 | h2)
      · exact h2
      · rw [h2]
        exact (lookup_isSome_iff o k).mp h
  · rw [if_neg h]
    simp [or_comm, eq_comm]

theorem lookup_map_replace {α : Type} (o : List (String × α)) (k : String) (v : α)
    (h : k ∈ o.map Prod.fst) :
    (o.map (fun kv => if kv.1 = k then (k, v) else kv)).lookup k = some v := by
  induction o with
  | nil => simp at h
  | cons a o ih =>
    obtain ⟨ka, va⟩ := a
    by_cases hk : ka = k
    · subst hk
      rw [List.map_cons, if_pos (show (ka, va).1 = ka from rfl)]
      simp [List.lookup]
    · have hne : (k == ka) = false := by
        rw [beq_eq_false_iff_ne]
        exact fun he => hk he.symm
      have h2 : k ∈ o.map Prod.fst := by
        simp only [List.map_cons, List.mem_cons] at h
        rcases h with h3 | h3
        · exact absurd h3.symm hk
        · exact h3
      simp only [List.map_cons]
      rw [if_neg (by simpa using hk)]
      simp only [List.lookup, hne]
      exact ih h2

theorem dictSet_lookup_self {α : Type} (o : List (String × α)) (k : String) (v : α) :
    (dictSet o k v).lookup k = some v := by
  unfold dictSet
  by_cases h : (o.lookup k).isSome = true
  · rw [if_pos h]
    exact lookup_map_replace o k v ((lookup_isSome_iff o k).mp h)
  · rw [if_neg h]
    have hn : o.lookup k = none := Option.not_isSome_iff_eq_none.mp (by simpa using h)
    rw [lookup_append_of_none hn]
    simp [List.lookup]

theorem lookup_append_left {α : Type} {l l2 : List (String × α)} {k : String}
    {v : α} (h : l.lookup k = some v) : (l ++ l2).lookup k = some v := by
  induction l with
  | nil => simp [List.lookup] at h
  | cons a l ih =>
    obtain ⟨ka, va⟩ := a
    cases hk : k == ka with
    | true =>
      have h3 := h
      simp only [List.lookup, hk] at h3
      rw [List.cons_append]
      simp only [List.lookup, hk]
      exact h3
    | false =>
      have h3 := h
      simp only [List.lookup, hk] at h3
      rw [List.cons_append]
      simp only [List.lookup, hk]
      exact ih h3

theorem replace_map_id {α : Type} (o : List (String × α)) (k : String) (v : α)
    (h : k ∉ o.map Prod.fst) :
    o.map (fun kv => if kv.1 = k then (k, v) else kv) = o := by
  induction o with
  | nil => rfl
  | cons a o ih =>
    simp only [List.map_cons, List.mem_cons, not_or] at h
    rw [List.map_cons, if_neg (fun he => h.1 he.symm), ih h.2]

theorem lookup_replace {α : Type} (o : List (String × α)) (k k2 : String) (v : α)
    (hne : k2 ≠ k) :
    (o.map (fun kv => if kv.1 = k then (k, v) else kv)).lookup k2 = o.lookup k2 := by
  induction o with
  | nil => rfl
  | cons a o ih =>
    obtain ⟨ka, va⟩ := a
    by_cases hk : ka = k
    · subst hk
      have hb : (k2 == ka) = false := beq_eq_false_iff_ne.mpr hne
      simp only [List.map_cons, if_pos rfl]
      simp only [List.lookup, hb]
      exact ih
    · simp only [List.map_cons]
      rw [if_neg (by simpa using hk)]
      cases hb : k2 == ka with
      | true => simp [List.lookup, hb]
      | false =>
        simp only [List.lookup, hb]
        exact ih

theorem dictSet_lookup_other {α : Type} (o : List (String × α)) (k k2 : String)
    (v : α) (hne : k2 ≠ k) : (dictSet o k v).lookup k2 = o.lookup k2 := by
  unfold dictSet
  by_cases h : (o.lookup k).isSome = true
  · rw [if_pos h]
    exact lookup_replace o k k2 v hne
  · rw [if_neg h]
    cases hx : o.lookup k2 with
    | some w => rw [lookup_append_left hx]
    | none =>
      rw [lookup_append_of_none hx]
      simp [List.lookup, beq_eq_false_iff_ne.mpr hne]

theorem merge_step_eq_dictSet (final : List (String × JObj)) (k : String)
    (cfg : JObj) :
    ∃ sv, merge_step final k cfg = dictSet final k (dictSet cfg "status" sv) :=
  ⟨_, rfl⟩

theorem foldl_merge_keys (c : List (String × JObj)) (acc : List (String × JObj))
    (k2 : String) :
    (k2 ∈ ((c.foldl (fun f kc => merge_step f kc.1 kc.2) acc).map Prod.fst)) ↔
      (k2 ∈ acc.map Prod.fst ∨ k2 ∈ c.map Prod.fst) := by
  induction c generalizing acc with
  | nil => simp
  | cons a c ih =>
    rw [List.foldl_cons, ih]
    obtain ⟨sv, hsv⟩ := merge_step_eq_dictSet acc a.1 a.2
    rw [hsv, dictSet_keys]
    simp only [List.map_cons, List.mem_cons]
    tauto

theorem foldl_merge_lookup_not_mem (c : List (String × JObj))
    (acc : List (String × JObj)) (k : String) (h : k ∉ c.map Prod.fst) :
    (c.foldl (fun f kc => merge_step f kc.1 kc.2) acc).lookup k = acc.lookup k := by
  induction c generalizing acc with
  | nil => rfl
  | cons a c ih =>
    simp only [List.map_cons, List.mem_cons, not_or] at h
    rw [List.foldl_cons, ih _ h.2]
    obtain ⟨sv, hsv⟩ := merge_step_eq_dictSet acc a.1 a.2
    rw [hsv, dictSet_lookup_other _ _ _ _ h.1]

theorem foldl_merge_seeds (c : List (String × JObj)) (acc : List (String × JObj))
    (k : String) (cfg : JObj) (hnd : (c.map Prod.fst).Nodup)
    (hmem : (k, cfg) ∈ c) (hacc : k ∉ acc.map Prod.fst) :
    (c.foldl (fun f kc => merge_step f kc.1 kc.2) acc).lookup k
      = some (dictSet cfg "status" unknownBlob) := by
  induction c generalizing acc with
  | nil => simp at hmem
  | cons a c ih =>
    rw [List.map_cons, List.nodup_cons] at hnd
    rw [List.foldl_cons]
    rcases List.mem_cons.mp hmem with h1 | h1
    · subst h1
      have hn : acc.lookup k = none := by
        rw [← Option.not_isSome_iff_eq_none]
        intro hs
        exact hacc ((lookup_isSome_iff acc k).mp (by simpa using hs))
      have hstep : merge_step acc k cfg
          = dictSet acc k (dictSet cfg "status" unknownBlob) := by
        simp only [merge_step, hn]
      rw [show merge_step acc (k, cfg).1 (k, cfg).2 = merge_step acc k cfg from rfl,
        hstep, foldl_merge_lookup_not_mem c _ k hnd.1]
      exact dictSet_lookup_self _ _ _
    · have hka : k ≠ a.1 := by
        intro he
        apply hnd.1
        rw [← he]
        exact List.mem_map.mpr ⟨(k, cfg), h1, rfl⟩
      apply ih
      all_goals first
      | exact hnd.2
      | exact h1
      | (obtain ⟨sv, hsv⟩ := merge_step_eq_dictSet acc a.1 a.2
         rw [hsv, dictSet_keys]
         rintro (h2 | h2)
         · exact hacc h2
         · exact hka h2)

/-- C6: after the reconciliation of `load`, the merged stat holds exactly
the package ids of the config — every stat-only id is dropped by the first
loop, every config id is written by the second — and an id present in the
config but absent from the stat file is seeded with the
`{"status": "UNKNOWN", "statusinfo": {"errorcount": 0, "lastsync": 0.0}}`
blob as its `status` field on a copy of its config entry. -/
theorem load_reconciles (c s : List (String × JObj))
    (hc : (c.map Prod.fst).Nodup) :
    (∀ k, k ∈ (load_merge c s).map Prod.fst ↔ k ∈ c.map Prod.fst) ∧
    (∀ k cfg, (k, cfg) ∈ c → k ∉ s.map Prod.fst →
      (load_merge c s).lookup k = some (dictSet cfg "status" unknownBlob) ∧
      jGet (dictSet cfg "status" unknownBlob) "status" = some unknownBlob) := by
  constructor
  · intro k
    unfold load_merge
    rw [foldl_merge_keys]
    constructor
    · rintro (h | h)
      · obtain ⟨kv, hkv, rfl⟩ := List.mem_map.mp h
        have hf := List.mem_filter.mp hkv
        exact (lookup_isSome_iff c kv.1).mp (by simpa using hf.2)
      · exact h
    · exact Or.inr
  · intro k cfg hmem hnot
    refine ⟨?_, dictSet_lookup_self cfg "status" unknownBlob⟩
    unfold load_merge
    apply foldl_merge_seeds c _ k cfg hc hmem
    intro h
    obtain ⟨kv, hkv, rfl⟩ := List.mem_map.mp h
    exact hnot (List.mem_map.mpr ⟨kv, List.mem_of_mem_filter hkv, rfl⟩)

/-- A config entry for the `mirror` package. -/
def cfgMirror : JObj := [("id", J.str "mirror"), ("name", J.str "Mirror")]

/-- A stat entry for a package that was removed from the config. -/
def statLegacy : JObj := [("status", J.str "ACTIVE")]

/-- A config declaring only `mirror`. -/
def cDemo : List (String × JObj) := [("mirror", cfgMirror)]

/-- A stat file holding only the orphan `legacy`. -/
def sDemo : List (String × JObj) := [("legacy", statLegacy)]

/-- Witness for C6: the orphan is dropped, the newcomer is seeded. -/
theorem load_reconciles_witness :
    ("mirror" ∈ (load_merge cDemo sDemo).map Prod.fst) ∧
    ("legacy" ∉ (load_merge cDemo sDemo).map Prod.fst) ∧
    (load_merge cDemo sDemo).lookup "mirror"
      = some (dictSet cfgMirror "status" unknownBlob) := by
  have h := load_reconciles cDemo sDemo (by simp [cDemo])
  refine ⟨(h.1 "mirror").mpr (by simp [cDemo]), ?_,
    (h.2 "mirror" cfgMirror (by simp [cDemo]) (by simp [sDemo])).1⟩
  intro hmem
  have h2 := (h.1 "legacy").mp hmem
  simp [cDemo] at h2

/-! ## C9 — duration format/parse roundtrip -/

theorem charVal_digitChar {d : Nat} (h : d < 10) : charVal (digitChar d) = d := by
  interval_cases d <;> decide

theorem isDig_digitChar {d : Nat} (h : d < 10) : isDig (digitChar d) = true := by
  interval_cases d <;> decide

theorem natToDigits_append (n : Nat) :
    ∀ acc, natToDigits n acc = natToDigits n [] ++ acc := by
  induction n using Nat.strong_induction_on with
  | _ n ih =>
    intro acc
    by_cases h : n < 10
    · rw [natToDigits.eq_def]
      conv_rhs => rw [natToDigits.eq_def]
      simp [h]
    · have hlt : n / 10 < n := Nat.div_lt_self (by omega) (by omega)
      rw [natToDigits.eq_def]
      simp only [dif_neg h]
      conv_rhs => rw [natToDigits.eq_def]
      simp only [dif_neg h]
      rw [ih _ hlt (digitChar (n % 10) :: acc), ih _ hlt [digitChar (n % 10)]]
      simp

theorem natRepr_ne_nil (n : Nat) : natRepr n ≠ [] := by
  unfold natRepr
  by_cases h : n < 10
  · rw [natToDigits.eq_def]
    simp [h]
  · rw [natToDigits.eq_def]
    simp only [dif_neg h]
    rw [natToDigits_append]
    simp

theorem natRepr_digits (n : Nat) : ∀ c ∈ natRepr n, isDig c = true := by
  unfold natRepr
  suffices hgen : ∀ m, ∀ acc, (∀ c ∈ acc, isDig c = true) →
      ∀ c ∈ natToDigits m acc, isDig c = true by
    exact hgen n [] (by simp)
  intro m
  induction m using Nat.strong_induction_on with
  | _ m ih =>
    intro acc hacc c hc
    by_cases h : m < 10
    · rw [natToDigits.eq_def] at hc
      simp only [dif_pos h] at hc
      rcases List.mem_cons.mp hc with h2 | h2
      · rw [h2]
        exact isDig_digitChar h
      · exact hacc c h2
    · rw [natToDigits.eq_def] at hc
      simp only [dif_neg h] at hc
      refine ih _ (Nat.div_lt_self (by omega) (by omega)) _ ?_ c hc
      intro c2 hc2
      rcases List.mem_cons.mp hc2 with h2 | h2
      · rw [h2]
        exact isDig_digitChar (Nat.mod_lt _ (by omega))
      · exact hacc c2 h2

theorem digitsVal_append (a : Nat) (l1 l2 : List Char) :
    digitsVal a (l1 ++ l2) = digitsVal (digitsVal a l1) l2 := by
  unfold digitsVal
  exact List.foldl_append _ _ _ _

theorem digitsVal_natRepr (n : Nat) :
    ∀ a, digitsVal a (natRepr n) = a * 10 ^ (natRepr n).length + n := by
  induction n using Nat.strong_induction_on with
  | _ n ih =>
    intro a
    by_cases h : n < 10
    · have hrepr : natRepr n = [digitChar n] := by
        unfold natRepr
        rw [natToDigits.eq_def]
        simp [h]
      rw [hrepr]
      show a * 10 + charVal (digitChar n) = a * 10 ^ 1 + n
      rw [charVal_digitChar h, pow_one]
    · have hlt : n / 10 < n := Nat.div_lt_self (by omega) (by omega)
      have hrepr : natRepr n = natRepr (n / 10) ++ [digitChar (n % 10)] := by
        unfold natRepr
        conv_lhs => rw [natToDigits.eq_def]
        simp only [dif_neg h]
        exact natToDigits_append (n / 10) [digitChar (n % 10)]
      rw [hrepr, digitsVal_append, ih _ hlt a]
      show (a * 10 ^ (natRepr (n / 10)).length + n / 10) * 10
          + charVal (digitChar (n % 10)) = _
      rw [charVal_digitChar (Nat.mod_lt _ (by omega))]
      rw [List.length_append, List.length_singleton, pow_succ]
      have harith : (a * 10 ^ (natRepr (n / 10)).length + n / 10) * 10 + n % 10
          = a * (10 ^ (natRepr (n / 10)).length * 10)
            + (n / 10 * 10 + n % 10) := by ring
      rw [harith]
      congr 1
      omega

theorem digitsVal_natRepr_zero (n : Nat) : digitsVal 0 (natRepr n) = n := by
  rw [digitsVal_natRepr n 0]
  simp

theorem takeWhile_digits_append {l : List Char} (hl : ∀ c ∈ l, isDig c = true)
    {c : Char} (hc : isDig c = false) (r : List Char) :
    (l ++ c :: r).takeWhile isDig = l ∧ (l ++ c :: r).dropWhile isDig = c :: r := by
  induction l with
  | nil => simp [List.takeWhile_cons, List.dropWhile_cons, hc]
  | cons d l ih =>
    have hd := hl d (List.mem_cons_self _ _)
    obtain ⟨ht, hdr⟩ := ih (fun c2 hc2 => hl c2 (List.mem_cons_of_mem _ hc2))
    simp [List.takeWhile_cons, List.dropWhile_cons, hd, ht, hdr]

theorem matchGroup_hit (letter : Char) (hl : isDig letter = false) (v : Nat)
    (rest : List Char) :
    matchGroup letter (natRepr v ++ letter :: rest) = (v, rest) := by
  obtain ⟨ht, hd⟩ := takeWhile_digits_append (natRepr_digits v) hl rest
  unfold matchGroup
  rw [hd, ht]
  simp [natRepr_ne_nil v, digitsVal_natRepr_zero]

theorem matchGroup_skip_run (letter c : Char) (hc : isDig c = false)
    (hne : c ≠ letter) (v : Nat) (rest : List Char) :
    matchGroup letter (natRepr v ++ c :: rest) = (0, natRepr v ++ c :: rest) := by
  obtain ⟨ht, hd⟩ := takeWhile_digits_append (natRepr_digits v) hc rest
  unfold matchGroup
  rw [hd, ht]
  simp [hne]

theorem matchGroup_skip_head (letter c : Char) (hc : isDig c = false)
    (rest : List Char) : matchGroup letter (c :: rest) = (0, c :: rest) := by
  unfold matchGroup
  simp [List.takeWhile_cons, List.dropWhile_cons, hc]

theorem matchGroup_nil (letter : Char) : matchGroup letter [] = (0, []) := rfl

theorem emit_zero (c : Char) : emit 0 c = [] := rfl

theorem emit_pos {v : Nat} (h : v ≠ 0) (c : Char) : emit v c = natRepr v ++ [c] :=
  if_neg h

theorem emit_append_cons {v : Nat} (h : v ≠ 0) (c : Char) (rest : List Char) :
    emit v c ++ rest = natRepr v ++ c :: rest := by
  rw [emit_pos h, List.append_assoc, List.singleton_append]

theorem matchGroup_emit_S (s : Nat) : matchGroup 'S' (emit s 'S') = (s, []) := by
  by_cases h : s = 0
  · subst h
    rfl
  · rw [emit_pos h]
    exact matchGroup_hit 'S' (by decide) s []

theorem matchGroup_emit_M (m s : Nat) :
    matchGroup 'M' (emit m 'M' ++ emit s 'S') = (m, emit s 'S') := by
  by_cases hm : m = 0
  · subst hm
    rw [emit_zero, List.nil_append]
    by_cases hs : s = 0
    · subst hs
      rfl
    · rw [emit_pos hs]
      exact matchGroup_skip_run 'M' 'S' (by decide) (by decide) s []
  · rw [emit_append_cons hm]
    exact matchGroup_hit 'M' (by decide) m (emit s 'S')

theorem matchGroup_emit_H (hv m s : Nat) :
    matchGroup 'H' (emit hv 'H' ++ emit m 'M' ++ emit s 'S')
      = (hv, emit m 'M' ++ emit s 'S') := by
  by_cases hh : hv = 0
  · subst hh
    rw [emit_zero, List.nil_append]
    by_cases hm : m = 0
    · subst hm
      rw [emit_zero, List.nil_append]
      by_cases hs : s = 0
      · subst hs
        rfl
      · rw [emit_pos hs]
        exact matchGroup_skip_run 'H' 'S' (by decide) (by decide) s []
    · rw [emit_append_cons hm]
      exact matchGroup_skip_run 'H' 'M' (by decide) (by decide) m (emit s 'S')
  · rw [List.append_assoc, emit_append_cons hh]
    exact matchGroup_hit 'H' (by decide) hv (emit m 'M' ++ emit s 'S')

theorem matchGroup_skip_dt (letter : Char) (hne : letter ≠ 'D') (days : Nat)
    (tpart : List Char) (htpart : tpart = [] ∨ ∃ ts, tpart = 'T' :: ts) :
    matchGroup letter (emit days 'D' ++ tpart) = (0, emit days 'D' ++ tpart) := by
  by_cases hd : days = 0
  · subst hd
    rw [emit_zero, List.nil_append]
    rcases htpart with rfl | ⟨ts, rfl⟩
    · exact matchGroup_nil letter
    · exact matchGroup_skip_head letter 'T' (by decide) ts
  · rw [emit_append_cons hd]
    exact matchGroup_skip_run letter 'D' (by decide) (fun he => hne he.symm) days tpart

theorem matchGroup_days (days : Nat) (tpart : List Char)
    (htpart : tpart = [] ∨ ∃ ts, tpart = 'T' :: ts) :
    matchGroup 'D' (emit days 'D' ++ tpart) = (days, tpart) := by
  by_cases hd : days = 0
  · subst hd
    rw [emit_zero, List.nil_append]
    rcases htpart with rfl | ⟨ts, rfl⟩
    · exact matchGroup_nil 'D'
    · exact matchGroup_skip_head 'D' 'T' (by decide) ts
  · rw [emit_append_cons hd]
    exact matchGroup_hit 'D' (by decide) days tpart

theorem body_ne_push (days : Nat) (tpart : List Char)
    (htpart : (tpart = [] ∧ days ≠ 0) ∨ ∃ ts, tpart = 'T' :: ts) :
    ('P' :: (emit days 'D' ++ tpart)) ≠ ['P', 'U', 'S', 'H'] := by
  intro he
  have h2 : emit days 'D' ++ tpart = ['U', 'S', 'H'] := by
    injection he
  by_cases hd : days = 0
  · rcases htpart with ⟨htp, hdd⟩ | ⟨ts, hts⟩
    · exact hdd hd
    · subst hd
      subst hts
      rw [emit_zero, List.nil_append] at h2
      injection h2 with h3 _
      exact absurd h3 (by decide)
  · rw [emit_append_cons hd] at h2
    obtain ⟨c0, t0, hc0⟩ := List.exists_cons_of_ne_nil (natRepr_ne_nil days)
    rw [hc0, List.cons_append] at h2
    injection h2 with h3 _
    have hdig : isDig c0 = true :=
      natRepr_digits days c0 (by rw [hc0]; exact List.mem_cons_self _ _)
    rw [h3] at hdig
    exact absurd hdig (by decide)

theorem parse_P_eq (r0 : List Char) (h : ('P' :: r0) ≠ ['P', 'U', 'S', 'H']) :
    iso_duration_parse ('P' :: r0) =
      (let dr1 := matchGroup 'Y' r0
       let dr2 := matchGroup 'M' dr1.2
       let dr3 := matchGroup 'W' dr2.2
       let dr4 := matchGroup 'D' dr3.2
       let hms : Nat × Nat × Nat :=
         match dr4.2 with
         | 'T' :: r5 =>
           let (hv, r6) := matchGroup 'H' r5
           let (mv, r7) := matchGroup 'M' r6
           let (sv, _) := matchGroup 'S' r7
           (hv, mv, sv)
         | _ => (0, 0, 0)
       .ok ((dr4.1 : Int) * 24 * 3600 + (hms.1 : Int) * 3600 +
            (hms.2.1 : Int) * 60 + (hms.2.2 : Int))) := by
  unfold iso_duration_parse
  rw [if_neg (by simp), if_neg h]
  rfl

theorem parse_maker_body (N : Nat) (hN : 0 < N) :
    iso_duration_parse ('P' :: (emit (N / 86400) 'D' ++
      (if N % 86400 > 0 then
        'T' :: (emit (N % 86400 / 3600) 'H' ++ emit (N % 86400 % 3600 / 60) 'M'
          ++ emit (N % 86400 % 3600 % 60) 'S')
      else []))) = .ok (N : Int) := by
  set days := N / 86400 with hdays
  set rem := N % 86400 with hrem
  set hours := rem / 3600 with hhours
  set rem2 := rem % 3600 with hrem2
  set minutes := rem2 / 60 with hminutes
  set seconds := rem2 % 60 with hseconds
  by_cases hr : rem > 0
  · rw [if_pos hr]
    set ts := emit hours 'H' ++ emit minutes 'M' ++ emit seconds 'S' with hts
    rw [parse_P_eq _ (body_ne_push days ('T' :: ts) (Or.inr ⟨ts, rfl⟩))]
    have hY := matchGroup_skip_dt 'Y' (by decide) days ('T' :: ts) (Or.inr ⟨ts, rfl⟩)
    have hM := matchGroup_skip_dt 'M' (by decide) days ('T' :: ts) (Or.inr ⟨ts, rfl⟩)
    have hW := matchGroup_skip_dt 'W' (by decide) days ('T' :: ts) (Or.inr ⟨ts, rfl⟩)
    have hD := matchGroup_days days ('T' :: ts) (Or.inr ⟨ts, rfl⟩)
    have hH : matchGroup 'H' ts = (hours, emit minutes 'M' ++ emit seconds 'S') := by
      rw [hts]
      exact matchGroup_emit_H hours minutes seconds
    have hM2 := matchGroup_emit_M minutes seconds
    have hS := matchGroup_emit_S seconds
    simp only [hY, hM, hW, hD, hH, hM2, hS]
    simp only [Except.ok.injEq]
    omega
  · rw [if_neg hr]
    have hd0 : days ≠ 0 := by omega
    rw [parse_P_eq _ (body_ne_push days [] (Or.inl ⟨rfl, hd0⟩))]
    have hY := matchGroup_skip_dt 'Y' (by decide) days [] (Or.inl rfl)
    have hM := matchGroup_skip_dt 'M' (by decide) days [] (Or.inl rfl)
    have hW := matchGroup_skip_dt 'W' (by decide) days [] (Or.inl rfl)
    have hD := matchGroup_days days [] (Or.inl rfl)
    simp only [hY, hM, hW, hD]
    simp only [Except.ok.injEq]
    omega

/-- C9: formatting a duration with `iso_duration_maker` and parsing the
result back is the identity on the sentinel -1 (`"PUSH"`) and on every
duration from 0 (the empty string) up to 2678399 seconds (the
31-day bound). -/
theorem iso_duration_roundtrip (n : Int)
    (h : n = -1 ∨ (0 ≤ n ∧ n ≤ 2678399)) :
    (iso_duration_maker n).bind iso_duration_parse = .ok n := by
  rcases h with rfl | ⟨h0, h1⟩
  · rfl
  · by_cases hz : n = 0
    · subst hz
      rfl
    · have hmk : iso_duration_maker n = .ok ('P' :: (emit (n.toNat / 86400) 'D' ++
        (if n.toNat % 86400 > 0 then
          'T' :: (emit (n.toNat % 86400 / 3600) 'H'
            ++ emit (n.toNat % 86400 % 3600 / 60) 'M'
            ++ emit (n.toNat % 86400 % 3600 % 60) 'S')
        else []))) := by
        unfold iso_duration_maker
        rw [if_neg (by omega), if_neg (by omega), if_neg (by omega), if_neg hz]
      rw [hmk]
      simp only [Except.bind]
      rw [parse_maker_body n.toNat (by omega), Int.toNat_of_nonneg h0]

/-- Witness for C9 at 90061 seconds (one day, one hour, one minute, one
second) and at the push sentinel. -/
theorem iso_duration_roundtrip_witness :
    (iso_duration_maker 90061).bind iso_duration_parse = .ok 90061 ∧
    (iso_duration_maker (-1)).bind iso_duration_parse = .ok (-1) :=
  ⟨iso_duration_roundtrip 90061 (Or.inr (by omega)),
   iso_duration_roundtrip (-1) (Or.inl rfl)⟩

end Mirror
